import Mathlib

/-!
Shallow embedding of the merci SDK core (`src/lib/merci.2.11.0.mjs`, a file that
contains both the v2.11.0 and the v2.14.0 variants of the SDK): the SSE stream
parser, the parameter capability registry with request assembly, and the agentic
`step`/`run` drivers.  JavaScript strings are Lean `String`; absent / `null` /
`undefined` fields are `Option`; JS numbers used as parallel tool-call indices
are `Int`; JSON-level values that the SDK only passes through opaquely are kept
as `String` tokens.  The remote model, the HTTP transport and tool execution are
external collaborators and appear as oracle functions in `RunEnv`.
-/

namespace Merci

/-- JS truthiness of a possibly-absent string field: `undefined`, `null` and the
empty string are falsy. -/
def isTruthy : Option String → Bool
  | none => false
  | some s => !(s == "")

/-- The text actually appended by `currentCall.arguments += parsed.content`,
which runs only under the truthiness guard `if (parsed.content)`. -/
def truthyText (c : Option String) : String :=
  if isTruthy c then c.getD "" else ""

/-- Mirror of `if (field) currentCall.field = field`: a truthy incoming value
overwrites, a falsy one leaves the current value. -/
def setField (cur new : Option String) : Option String :=
  if isTruthy new then new else cur

/-- An in-flight (or finalized) tool call of the SSE parser: the accumulator is
initialized as `{ id: null, name: null, arguments: '' }`. -/
structure ToolCallAcc where
  id : Option String
  name : Option String
  arguments : String
deriving DecidableEq, Repr

/-- JSON records recognized by `SSEParser.parseLine` after `JSON.parse`,
discriminated on their `type` field; `other` is any unrecognized discriminator
(the `default` branch). -/
inductive WireRecord where
  | content (content : Option String)
  | toolCall (parallelToolIndex : Option Int) (id : Option String)
      (name : Option String) (content : Option String)
  | finishMetadata (reason : Option String)
  | quotaMetadata
  | other
deriving DecidableEq, Repr

/-- One protocol line, classified the way `parseLine` classifies it: no
`data: ` marker, the `end` sentinel, a payload on which `JSON.parse` throws, or
a successfully decoded record. -/
inductive SSELine where
  | noData
  | endSentinel
  | malformed
  | dataLine (record : WireRecord)
deriving DecidableEq, Repr

/-- Events produced by the chat stream machinery. -/
inductive StreamEvent where
  | text (content : Option String)
  | quota
  | toolCalls (calls : List ToolCallAcc)
deriving DecidableEq, Repr

/-- The `toolCallsInProgress` JS `Map`, kept in insertion order. -/
abbrev Acc := List (Int × ToolCallAcc)

/-- Merge one tool-call fragment into an accumulator entry, exactly as the
three guarded statements of the `ToolCall` case do. -/
def mergeFragment (c : ToolCallAcc) (id name content : Option String) : ToolCallAcc :=
  { id := setField c.id id
    name := setField c.name name
    arguments := c.arguments ++ truthyText content }

/-- `Map.has`/`Map.set`/`Map.get` composite of the `ToolCall` case: insert a
fresh `{id: null, name: null, arguments: ''}` entry at the end when the index
is new, then merge the fragment into the entry in place. -/
def updateAcc (m : Acc) (idx : Int) (id name content : Option String) : Acc :=
  match m with
  | [] => [(idx, mergeFragment ⟨none, none, ""⟩ id name content)]
  | (k, v) :: rest =>
      if k = idx then (k, mergeFragment v id name content) :: rest
      else (k, v) :: updateAcc rest idx id name content

/-- `Map.get` on the accumulator. -/
def lookupAcc (m : Acc) (i : Int) : Option ToolCallAcc :=
  match m with
  | [] => none
  | (k, v) :: rest => if k = i then some v else lookupAcc rest i

/-- Comparator of the flush: `.sort(([a], [b]) => a - b)` ascending on keys. -/
def entryLE (p q : Int × ToolCallAcc) : Prop := p.1 ≤ q.1

instance : DecidableRel entryLE := fun p q => inferInstanceAs (Decidable (p.1 ≤ q.1))

instance : IsTotal (Int × ToolCallAcc) entryLE := ⟨fun p q => le_total p.1 q.1⟩

instance : IsTrans (Int × ToolCallAcc) entryLE := ⟨fun _ _ _ h h2 => le_trans h h2⟩

/-- The stable ascending-by-key sort applied to the accumulator entries at
flush time. -/
def sortEntries (m : Acc) : Acc := List.insertionSort entryLE m

/-- Parser state: the finalized list and the in-flight accumulator. -/
structure SSEState where
  finalizedToolCalls : List ToolCallAcc
  toolCallsInProgress : Acc
deriving DecidableEq, Repr

/-- `['tool_call', 'tool_calls', 'stop']`: the finish reasons that flush the
accumulator. -/
def flushReasons : List String := ["tool_call", "tool_calls", "stop"]

/-- The `switch (parsed.type)` body, shared verbatim by the v2.11.0 and the
v2.14.0 parser (the two variants differ only on malformed payloads). -/
def handleRecord (s : SSEState) : WireRecord → Option StreamEvent × SSEState
  | .content c => (some (.text c), s)
  | .toolCall pidx id name content =>
      (none, { s with
        toolCallsInProgress := updateAcc s.toolCallsInProgress (pidx.getD 0) id name content })
  | .finishMetadata reason =>
      match reason with
      | some r =>
          if r ∈ flushReasons then
            (none,
              { finalizedToolCalls :=
                  s.finalizedToolCalls ++ (sortEntries s.toolCallsInProgress).map Prod.snd
                toolCallsInProgress := [] })
          else (none, s)
      | none => (none, s)
  | .quotaMetadata => (some .quota, s)
  | .other => (none, s)

namespace SSEParser

/-- v2.14.0 `SSEParser.parseLine`: a malformed data payload raises `SSEError`
(the `Except.error` case). -/
def parseLine (s : SSEState) : SSELine → Except Unit (Option StreamEvent × SSEState)
  | .noData => .ok (none, s)
  | .endSentinel => .ok (none, s)
  | .malformed => .error ()
  | .dataLine r => .ok (handleRecord s r)

/-- Feed a list of protocol lines through the v2.14.0 parser, collecting the
emitted events (the per-line loop of `ChatSession.stream`). -/
def processLines (s : SSEState) : List SSELine → Except Unit (List StreamEvent × SSEState)
  | [] => .ok ([], s)
  | l :: rest =>
      match parseLine s l with
      | .error e => .error e
      | .ok (ev, s1) =>
          match processLines s1 rest with
          | .error e => .error e
          | .ok (evs, s2) => .ok (ev.toList ++ evs, s2)

/-- `getFinalResult().toolCalls`. -/
def getFinalResult (s : SSEState) : List ToolCallAcc := s.finalizedToolCalls

/-- The aggregate event `ChatSession.stream` yields after the byte stream ends:
`if (finalResult.toolCalls.length > 0) yield { type: 'tool_calls', calls }`. -/
def finalToolCallEvents (s : SSEState) : List StreamEvent :=
  if (getFinalResult s).length > 0 then [.toolCalls (getFinalResult s)] else []

end SSEParser

namespace SSEParser11

/-- v2.11.0 `SSEParser.parseLine`: the surrounding `try`/`catch` returns `null`
on a malformed payload, so the line is silently dropped and no error escapes. -/
def parseLine (s : SSEState) : SSELine → Option StreamEvent × SSEState
  | .noData => (none, s)
  | .endSentinel => (none, s)
  | .malformed => (none, s)
  | .dataLine r => handleRecord s r

end SSEParser11

/-- A tool-call fragment record, i.e. the payload of one `ToolCall` line. -/
structure Frag where
  parallelToolIndex : Option Int
  id : Option String
  name : Option String
  content : Option String
deriving DecidableEq, Repr

/-- `parsed.parallelToolIndex ?? 0`. -/
def Frag.idx (f : Frag) : Int := f.parallelToolIndex.getD 0

/-- The protocol line carrying this fragment. -/
def Frag.line (f : Frag) : SSELine :=
  .dataLine (.toolCall f.parallelToolIndex f.id f.name f.content)

/-- The argument text this fragment contributes. -/
def Frag.text (f : Frag) : String := truthyText f.content

/-- The fragments of a stream prefix that target parallel index `i`. -/
def fragsAt (i : Int) (fs : List Frag) : List Frag := fs.filter (fun f => f.idx = i)

/-- Merge a fragment into an accumulator entry. -/
def mergeFrag (c : ToolCallAcc) (f : Frag) : ToolCallAcc :=
  mergeFragment c f.id f.name f.content

/-- Merge a whole fragment sequence, in arrival order. -/
def mergeFrags (c : ToolCallAcc) (fs : List Frag) : ToolCallAcc := fs.foldl mergeFrag c

/-- The fresh accumulator entry `{ id: null, name: null, arguments: '' }`. -/
def freshAcc : ToolCallAcc := ⟨none, none, ""⟩

/-- Process one fragment line against the accumulator map. -/
def applyFrag (m : Acc) (f : Frag) : Acc := updateAcc m f.idx f.id f.name f.content

/-- Process a list of fragment lines against the accumulator map. -/
def applyFrags (m : Acc) (fs : List Frag) : Acc := fs.foldl applyFrag m

/-- Concatenation of a list of argument-text pieces, in order. -/
def textConcat : List String → String
  | [] => ""
  | s :: rest => s ++ textConcat rest

/-- What a fold of `setField` produces: the last truthy value if any, the
initial value otherwise. -/
def lastTruthy (init : Option String) (l : List (Option String)) : Option String :=
  l.foldl setField init

/-- The id (or name) carried by the last fragment field that was truthy, if
any. -/
def lastCarried (l : List (Option String)) : Option String :=
  ((l.filter (fun o => isTruthy o)).getLast?).getD none

/-- Merging a fragment sequence into a possibly-absent accumulator entry: a
missing entry is created fresh by the first fragment. -/
def mergeInto (entry : Option ToolCallAcc) (fs : List Frag) : Option ToolCallAcc :=
  match entry, fs with
  | some c, gs => some (mergeFrags c gs)
  | none, [] => none
  | none, gs => some (mergeFrags freshAcc gs)

end Merci

namespace Merci

/-- The serialized-to-history form of one tool result value, standing for
`JSON.stringify(result.success ? result.result : { error: ... })`. -/
inductive ResultPayload where
  | value (result : String)
  | failure (error : String)
deriving DecidableEq, Repr

/-- The `ChatMessage` tagged union of the SDK. -/
inductive ChatMessage where
  | userMessage (content : String)
  | systemMessage (content : String)
  | assistantMessageText (content : String)
  | assistantMessageTool (id : Option String) (toolName : Option String) (content : String)
  | toolMessage (id : Option String) (toolName : Option String) (result : ResultPayload)
  | mediaMessage (mediaType : String) (data : String)
deriving DecidableEq, Repr

def createUserMessage (content : String) : ChatMessage := .userMessage content

def createSystemMessage (content : String) : ChatMessage := .systemMessage content

def createAssistantTextMessage (content : String) : ChatMessage := .assistantMessageText content

def createAssistantToolCallMessage (id toolName : Option String) (content : String) : ChatMessage :=
  .assistantMessageTool id toolName content

def createToolResultMessage (id toolName : Option String) (result : ResultPayload) : ChatMessage :=
  .toolMessage id toolName result

/-- `m.type === 'system_message'`. -/
def ChatMessage.isSystem : ChatMessage → Bool
  | .systemMessage _ => true
  | _ => false

/-- A tool call handed to the orchestrator is exactly a finalized accumulator
entry. -/
abbrev ToolCall := ToolCallAcc

/-- One caller-supplied tool execution result `{name, success, result|error}`;
`result` is an opaque token for the arbitrary JSON-serializable value. -/
structure ToolExecutionResult where
  name : String
  success : Bool
  result : String
  error : Option String
deriving DecidableEq, Repr

/-- `result.success ? result.result : { error: result.error || 'Unknown execution error' }`. -/
def resultValue (r : ToolExecutionResult) : ResultPayload :=
  if r.success then .value r.result
  else .failure (if isTruthy r.error then r.error.getD "" else "Unknown execution error")

/-- The history-append loop of `ChatSession.step` (and of the v2.11.0 `run`):
`toolExecutionResults.forEach((result, index) => { ... push(call); push(result) })`,
pairing result `i` with call `i`; the source assumes one result per call. -/
def appendToolRound (messages : List ChatMessage) (toolCalls : List ToolCall)
    (results : List ToolExecutionResult) : List ChatMessage :=
  (results.zip toolCalls).foldl
    (fun acc rc =>
      acc ++ [createAssistantToolCallMessage rc.2.id rc.2.name rc.2.arguments,
              createToolResultMessage rc.2.id rc.2.name (resultValue rc.1)])
    messages

/-- Closed form of the two history entries appended per tool call: the
assistant-tool-call entry immediately followed by the matching tool-result
entry, in call order. -/
def toolRoundMessages : List (ToolExecutionResult × ToolCall) → List ChatMessage
  | [] => []
  | rc :: rest =>
      createAssistantToolCallMessage rc.2.id rc.2.name rc.2.arguments ::
        createToolResultMessage rc.2.id rc.2.name (resultValue rc.1) ::
        toolRoundMessages rest

/-- `#buildRequestBody` message assembly: `const allMessages = [...messages];
if (this.#systemMessage && !messages.some(m => m.type === 'system_message'))
allMessages.unshift(createSystemMessage(...))`. -/
def buildRequestMessages (systemMessage : Option String) (messages : List ChatMessage) :
    List ChatMessage :=
  if isTruthy systemMessage && !(messages.any ChatMessage.isSystem) then
    createSystemMessage (systemMessage.getD "") :: messages
  else messages

/-- Outcome of one `step` turn after the generator has run to completion. -/
structure StepReturn where
  content : String
  messages : List ChatMessage
  usedTools : Bool
deriving DecidableEq, Repr

/-- The external collaborators of the orchestrator: `modelTurn messages force`
is the aggregation of one streamed model response (all text deltas concatenated
and the finalized tool-call batch) where `force` is the `forceTextResponse`
flag (realized in the source by overriding the tool choice to `none`);
`execTools` is the external tool executor. -/
structure RunEnv where
  modelTurn : List ChatMessage → Bool → String × List ToolCall
  execTools : List ToolCall → List ToolExecutionResult

/-- v2.14.0 `ChatSession.step`, with the suspension point flattened: the
caller's resumption (the values passed to `.next(results)`) is the function
`resultsFor` applied to the yielded calls. -/
def ChatSession.step (env : RunEnv) (messages : List ChatMessage) (forceTextResponse : Bool)
    (resultsFor : List ToolCall → List ToolExecutionResult) : StepReturn :=
  let turn := env.modelTurn messages forceTextResponse
  let assistantResponse := turn.1
  let toolCalls := turn.2
  if toolCalls.length > 0 then
    { content := assistantResponse
      messages := appendToolRound messages toolCalls (resultsFor toolCalls)
      usedTools := true }
  else
    { content := assistantResponse
      messages := messages ++ [createAssistantTextMessage assistantResponse]
      usedTools := false }

/-- The fixed advisory fallback string returned by v2.14.0 `run` when the
iteration budget is exhausted. -/
def fallbackMessage : String :=
  "The model reached the maximum tool iteration limit and could not provide a final text response."

/-- Observable outcome of one `run`: the returned string, the
`forceTextResponse` flag of each network turn in order, and the number of
`tool_warning` emissions. -/
structure RunResult where
  result : String
  turnFlags : List Bool
  warningCount : Nat
deriving DecidableEq, Repr

/-- The loop body of v2.14.0 `ChatSession.run`, measured by the remaining
iteration budget: `isLastIteration` holds when one iteration remains, the last
iteration emits the advisory warning and forces a text response, a no-tools
step returns its content immediately (even when empty), and a tool step whose
accompanying text is truthy returns that text. -/
def ChatSession.runAux (env : RunEnv) (messages : List ChatMessage) : Nat → RunResult
  | 0 => { result := fallbackMessage, turnFlags := [], warningCount := 0 }
  | remaining + 1 =>
      let isLastIteration := remaining == 0
      let warn : Nat := if isLastIteration then 1 else 0
      let stepResult := ChatSession.step env messages isLastIteration env.execTools
      if !stepResult.usedTools then
        { result := stepResult.content, turnFlags := [isLastIteration], warningCount := warn }
      else if stepResult.content != "" then
        { result := stepResult.content, turnFlags := [isLastIteration], warningCount := warn }
      else
        let rest := ChatSession.runAux env stepResult.messages remaining
        { result := rest.result
          turnFlags := isLastIteration :: rest.turnFlags
          warningCount := warn + rest.warningCount }

/-- v2.14.0 `ChatSession.run` with a configured `maxIterations`. -/
def ChatSession.run (env : RunEnv) (maxIterations : Nat)
    (initialInput : List ChatMessage) : RunResult :=
  ChatSession.runAux env initialInput maxIterations

end Merci

namespace Merci

/-- One entry of the `LLMParameters` table: wire name and value kind. -/
structure ParamDef where
  fqdn : String
  type : String
deriving DecidableEq, Repr

/-- The `LLMParameters` constant table, as a lookup from parameter key. -/
def LLMParameters : String → Option ParamDef
  | "TEMPERATURE" => some ⟨"llm.parameters.temperature", "double"⟩
  | "TOP_P" => some ⟨"llm.parameters.top-p", "double"⟩
  | "TOP_K" => some ⟨"llm.parameters.top-k", "int"⟩
  | "LENGTH" => some ⟨"llm.parameters.length", "int"⟩
  | "STOP_TOKEN" => some ⟨"llm.parameters.stop-token", "text"⟩
  | "SEED" => some ⟨"llm.parameters.seed", "int"⟩
  | "RESPONSE_FORMAT" => some ⟨"llm.parameters.response-format", "json"⟩
  | "TOOLS" => some ⟨"llm.parameters.tools", "json"⟩
  | "TOOL_CHOICE_AUTO" => some ⟨"llm.parameters.tool-choice-auto", "bool"⟩
  | "TOOL_CHOICE_REQUIRED" => some ⟨"llm.parameters.tool-choice-required", "bool"⟩
  | "TOOL_CHOICE_NONE" => some ⟨"llm.parameters.tool-choice-none", "bool"⟩
  | "TOOL_CHOICE_NAMED" => some ⟨"llm.parameters.tool-choice-named", "json"⟩
  | "PARALLEL_TOOL_CALLS" => some ⟨"llm.parameters.parallel-tool-calls", "bool"⟩
  | "REASONING_EFFORT" => some ⟨"llm.parameters.reasoning-effort", "text"⟩
  | "PREDICTED_OUTPUT" => some ⟨"llm.parameters.predicted-output", "json"⟩
  | "CACHE_POINTS" => some ⟨"llm.parameters.cache-points", "json"⟩
  | "THINKING_BUDGET" => some ⟨"llm.parameters.thinking-budget", "int"⟩
  | "NUMBER_OF_CHOICES" => some ⟨"llm.parameters.number-of-choices", "int"⟩
  | "VERBOSITY" => some ⟨"llm.parameters.verbosity", "text"⟩
  | _ => none

/-- `LLMParameters[k].fqdn`. -/
def fqdnOf (k : String) : String :=
  match LLMParameters k with
  | some d => d.fqdn
  | none => ""

/-- `LLMParameters[k].type`. -/
def typeOf (k : String) : String :=
  match LLMParameters k with
  | some d => d.type
  | none => ""

namespace paramGroups

def COMMON_TOOLS : List String :=
  ["TOOLS", "TOOL_CHOICE_NAMED", "TOOL_CHOICE_AUTO", "TOOL_CHOICE_REQUIRED",
   "TOOL_CHOICE_NONE"].map fqdnOf

def OPENAI_GPT3_4 : List String :=
  ["TEMPERATURE", "TOP_P", "SEED", "LENGTH", "NUMBER_OF_CHOICES",
   "PARALLEL_TOOL_CALLS"].map fqdnOf

def OPENAI_O_SERIES : List String :=
  ["LENGTH", "SEED", "RESPONSE_FORMAT", "REASONING_EFFORT", "NUMBER_OF_CHOICES"].map fqdnOf

def OPENAI_GPT4_1 : List String :=
  ["TOP_P", "LENGTH", "SEED", "TEMPERATURE", "RESPONSE_FORMAT", "NUMBER_OF_CHOICES",
   "PREDICTED_OUTPUT", "PARALLEL_TOOL_CALLS"].map fqdnOf

def OPENAI_GPT5 : List String :=
  ["LENGTH", "RESPONSE_FORMAT", "PARALLEL_TOOL_CALLS", "REASONING_EFFORT",
   "VERBOSITY"].map fqdnOf

def ANTHROPIC_CLAUDE3 : List String :=
  ["TEMPERATURE", "TOP_K", "TOP_P", "STOP_TOKEN", "LENGTH", "TOOLS"].map fqdnOf

def ANTHROPIC_CLAUDE_PLUS : List String :=
  ["TEMPERATURE", "TOP_P", "STOP_TOKEN", "LENGTH", "CACHE_POINTS",
   "PARALLEL_TOOL_CALLS"].map fqdnOf

def GOOGLE_GEMINI_1_5_PRO : List String :=
  ["TEMPERATURE", "TOP_P", "TOP_K", "RESPONSE_FORMAT", "LENGTH"].map fqdnOf

def GOOGLE_GEMINI_1_5_FLASH : List String :=
  ["TEMPERATURE", "TOP_P", "TOP_K", "LENGTH"].map fqdnOf

def GOOGLE_GEMINI_2_5_PRO : List String :=
  ["TEMPERATURE", "TOP_P", "TOP_K", "RESPONSE_FORMAT", "LENGTH", "THINKING_BUDGET",
   "TOOLS"].map fqdnOf

def GOOGLE_GEMINI_2_5_FLASH : List String :=
  ["RESPONSE_FORMAT", "TEMPERATURE", "LENGTH", "TOP_P", "THINKING_BUDGET"].map fqdnOf

end paramGroups

/-- One model profile: provider tag and the set of supported parameter wire
names (the JS `Set` is kept as a list; only membership is ever used). -/
structure ModelProfile where
  provider : String
  params : List String
deriving DecidableEq, Repr

/-- The `modelProfiles` capability registry. -/
def modelProfiles : String → Option ModelProfile
  | "openai-chat-gpt" =>
      some ⟨"OpenAI", paramGroups.OPENAI_GPT3_4 ++ paramGroups.COMMON_TOOLS⟩
  | "openai-gpt-4" =>
      some ⟨"OpenAI", paramGroups.OPENAI_GPT3_4 ++ paramGroups.COMMON_TOOLS⟩
  | "openai-gpt-4-turbo" =>
      some ⟨"OpenAI", paramGroups.OPENAI_GPT3_4 ++ paramGroups.COMMON_TOOLS ++
        [fqdnOf "RESPONSE_FORMAT"]⟩
  | "openai-gpt-4o" =>
      some ⟨"OpenAI", paramGroups.OPENAI_GPT3_4 ++ paramGroups.COMMON_TOOLS ++
        [fqdnOf "RESPONSE_FORMAT", fqdnOf "PREDICTED_OUTPUT"]⟩
  | "openai-gpt-4o-mini" =>
      some ⟨"OpenAI", paramGroups.OPENAI_GPT3_4 ++ paramGroups.COMMON_TOOLS ++
        [fqdnOf "RESPONSE_FORMAT", fqdnOf "PREDICTED_OUTPUT"]⟩
  | "openai-o1" =>
      some ⟨"OpenAI", paramGroups.OPENAI_O_SERIES ++ paramGroups.COMMON_TOOLS⟩
  | "openai-o1-mini" =>
      some ⟨"OpenAI", ["LENGTH", "SEED", "NUMBER_OF_CHOICES"].map fqdnOf⟩
  | "openai-o3" =>
      some ⟨"OpenAI", paramGroups.OPENAI_O_SERIES ++ paramGroups.COMMON_TOOLS⟩
  | "openai-o3-mini" =>
      some ⟨"OpenAI", paramGroups.OPENAI_O_SERIES ++ paramGroups.COMMON_TOOLS⟩
  | "openai-o4-mini" =>
      some ⟨"OpenAI", paramGroups.OPENAI_O_SERIES ++ paramGroups.COMMON_TOOLS⟩
  | "openai-gpt4.1" =>
      some ⟨"OpenAI", paramGroups.OPENAI_GPT4_1 ++ paramGroups.COMMON_TOOLS⟩
  | "openai-gpt4.1-mini" =>
      some ⟨"OpenAI", paramGroups.OPENAI_GPT4_1 ++ paramGroups.COMMON_TOOLS⟩
  | "openai-gpt4.1-nano" =>
      some ⟨"OpenAI", paramGroups.OPENAI_GPT4_1 ++ paramGroups.COMMON_TOOLS⟩
  | "openai-gpt-5" =>
      some ⟨"OpenAI", paramGroups.OPENAI_GPT5 ++ paramGroups.COMMON_TOOLS⟩
  | "openai-gpt-5-mini" =>
      some ⟨"OpenAI", paramGroups.OPENAI_GPT5 ++ paramGroups.COMMON_TOOLS⟩
  | "openai-gpt-5-nano" =>
      some ⟨"OpenAI", paramGroups.OPENAI_GPT5 ++ paramGroups.COMMON_TOOLS⟩
  | "Grazie_model_1" =>
      some ⟨"OpenAI", paramGroups.OPENAI_GPT5 ++ paramGroups.COMMON_TOOLS⟩
  | "Grazie_model_2" =>
      some ⟨"OpenAI", paramGroups.OPENAI_GPT5 ++ paramGroups.COMMON_TOOLS⟩
  | "openai-instruct-gpt" => some ⟨"OpenAI", [fqdnOf "TEMPERATURE"]⟩
  | "openai-embedding-ada" => some ⟨"OpenAI", []⟩
  | "openai-embedding-small" => some ⟨"OpenAI", []⟩
  | "openai-embedding-large" => some ⟨"OpenAI", []⟩
  | "anthropic-claude-3-haiku" => some ⟨"Anthropic", paramGroups.ANTHROPIC_CLAUDE3⟩
  | "anthropic-claude-3-opus" => some ⟨"Anthropic", paramGroups.ANTHROPIC_CLAUDE3⟩
  | "anthropic-claude-3.5-haiku" =>
      some ⟨"Anthropic", paramGroups.ANTHROPIC_CLAUDE_PLUS ++ paramGroups.COMMON_TOOLS⟩
  | "anthropic-claude-3.5-sonnet" =>
      some ⟨"Anthropic",
        (["TEMPERATURE", "TOP_P", "STOP_TOKEN", "LENGTH", "PARALLEL_TOOL_CALLS"].map fqdnOf) ++
          paramGroups.COMMON_TOOLS⟩
  | "anthropic-claude-3.7-sonnet" =>
      some ⟨"Anthropic", paramGroups.ANTHROPIC_CLAUDE_PLUS ++ paramGroups.COMMON_TOOLS⟩
  | "anthropic-claude-4-sonnet" =>
      some ⟨"Anthropic", paramGroups.ANTHROPIC_CLAUDE_PLUS ++ paramGroups.COMMON_TOOLS⟩
  | "anthropic-claude-4-opus" =>
      some ⟨"Anthropic", paramGroups.ANTHROPIC_CLAUDE_PLUS ++ paramGroups.COMMON_TOOLS⟩
  | "anthropic-claude-4.1-opus" =>
      some ⟨"Anthropic", paramGroups.ANTHROPIC_CLAUDE_PLUS ++ paramGroups.COMMON_TOOLS⟩
  | "google-chat-gemini-pro-1.5" =>
      some ⟨"Google", paramGroups.GOOGLE_GEMINI_1_5_PRO ++ paramGroups.COMMON_TOOLS⟩
  | "google-chat-gemini-flash-1.5" =>
      some ⟨"Google", paramGroups.GOOGLE_GEMINI_1_5_FLASH ++ paramGroups.COMMON_TOOLS⟩
  | "google-chat-gemini-flash-2.0" =>
      some ⟨"Google", paramGroups.GOOGLE_GEMINI_1_5_PRO ++ paramGroups.COMMON_TOOLS⟩
  | "google-chat-gemini-flash-lite-2.0" =>
      some ⟨"Google", paramGroups.GOOGLE_GEMINI_1_5_PRO ++ paramGroups.COMMON_TOOLS⟩
  | "google-chat-gemini-pro-2.5" =>
      some ⟨"Google", paramGroups.GOOGLE_GEMINI_2_5_PRO⟩
  | "google-chat-gemini-flash-2.5" =>
      some ⟨"Google", paramGroups.GOOGLE_GEMINI_2_5_FLASH ++ paramGroups.COMMON_TOOLS⟩
  | "google-chat-gemini-flash-lite-2.5" =>
      some ⟨"Google", paramGroups.GOOGLE_GEMINI_2_5_FLASH ++ paramGroups.COMMON_TOOLS⟩
  | _ => none

/-- A tool definition with its executable capability; the function value is
kept as an opaque tag, since only its removal matters on the wire. -/
structure ToolDef where
  name : String
  description : String
  parameters : String
  execute : Nat
deriving DecidableEq, Repr

/-- `({ execute, ...rest }) => rest`: the wire form of a tool. -/
structure SerialTool where
  name : String
  description : String
  parameters : String
deriving DecidableEq, Repr

def serializableTool (t : ToolDef) : SerialTool := ⟨t.name, t.description, t.parameters⟩

/-- The kind-tagged serialization of a parameter value: `Number(value)`,
`Boolean(value)`, `JSON.stringify(value)`, `String(value)`, or the stringified
tool list; the JS coercions themselves are external builtins and are kept as
tags around the opaque value token. -/
inductive Serialized where
  | jsNumber (value : String)
  | jsBoolean (value : String)
  | jsonStringify (value : String)
  | jsString (value : String)
  | toolList (tools : List SerialTool)
deriving DecidableEq, Repr

/-- One element pushed onto the `data` array of the parameters payload. -/
inductive DataEntry where
  | keyEntry (type fqdn : String)
  | valueEntry (type : String) (value : Serialized)
deriving DecidableEq, Repr

/-- The `switch (paramDef.type)` serialization of a parameter value. -/
def serializeValue (ty : String) (value : String) : Serialized :=
  if ty == "double" || ty == "int" then .jsNumber value
  else if ty == "bool" then .jsBoolean value
  else if ty == "json" then .jsonStringify value
  else .jsString value

/-- The payload of one `parameter_warning` event. -/
structure ParameterWarning where
  parameter : String
  profile : String
deriving DecidableEq, Repr

/-- `modelProfile && !modelProfile.params.has(paramDef.fqdn)`. -/
def excludedBy (modelProfile : Option ModelProfile) (f : String) : Bool :=
  match modelProfile with
  | some mp => decide (f ∉ mp.params)
  | none => false

/-- The tools block at the head of `buildParametersArray`: pushed whenever
tools are present and either the profile is unknown or it supports the tools
parameter. -/
def toolsBlock (tools : List ToolDef) (modelProfile : Option ModelProfile) : List DataEntry :=
  if tools.length > 0 then
    match modelProfile with
    | none =>
        [.keyEntry (typeOf "TOOLS") (fqdnOf "TOOLS"),
         .valueEntry "json" (.toolList (tools.map serializableTool))]
    | some mp =>
        if fqdnOf "TOOLS" ∈ mp.params then
          [.keyEntry (typeOf "TOOLS") (fqdnOf "TOOLS"),
           .valueEntry "json" (.toolList (tools.map serializableTool))]
        else []
  else []

/-- One iteration of the `for (const [key, value] of Object.entries(params))`
loop: unknown keys are skipped, excluded parameters produce a warning (when an
emitter is attached) and no entries, supported ones push their two entries. -/
def paramStep (modelProfile : Option ModelProfile) (profile : String) (hasEmitter : Bool)
    (acc : List DataEntry × List ParameterWarning) (kv : String × String) :
    List DataEntry × List ParameterWarning :=
  match LLMParameters kv.1 with
  | none => acc
  | some paramDef =>
      if excludedBy modelProfile paramDef.fqdn then
        (acc.1, acc.2 ++ (if hasEmitter then [⟨kv.1, profile⟩] else []))
      else
        (acc.1 ++ [.keyEntry paramDef.type paramDef.fqdn,
                   .valueEntry paramDef.type (serializeValue paramDef.type kv.2)],
         acc.2)

/-- `buildParametersArray` (identical in v2.11.0 and v2.14.0): the requested
parameters are the entries of the caller's params object in insertion order,
with opaque value tokens; the second component collects the emitted
`parameter_warning` payloads. -/
def buildParametersArray (params : List (String × String)) (tools : List ToolDef)
    (profile : String) (hasEmitter : Bool) :
    Option (List DataEntry) × List ParameterWarning :=
  let modelProfile := modelProfiles profile
  let built := params.foldl (paramStep modelProfile profile hasEmitter)
    (toolsBlock tools modelProfile, [])
  (if built.1.length > 0 then some built.1 else none, built.2)

/-- Closed form of the entries one params-loop iteration contributes. -/
def paramEntriesFor (modelProfile : Option ModelProfile) (kv : String × String) :
    List DataEntry :=
  match LLMParameters kv.1 with
  | none => []
  | some paramDef =>
      if excludedBy modelProfile paramDef.fqdn then []
      else [.keyEntry paramDef.type paramDef.fqdn,
            .valueEntry paramDef.type (serializeValue paramDef.type kv.2)]

/-- Closed form of the warnings one params-loop iteration contributes. -/
def paramWarningsFor (modelProfile : Option ModelProfile) (profile : String)
    (hasEmitter : Bool) (kv : String × String) : List ParameterWarning :=
  match LLMParameters kv.1 with
  | none => []
  | some paramDef =>
      if excludedBy modelProfile paramDef.fqdn then
        (if hasEmitter then [⟨kv.1, profile⟩] else [])
      else []

/-- Closed form of all entries the params loop contributes. -/
def paramEntriesList (modelProfile : Option ModelProfile) :
    List (String × String) → List DataEntry
  | [] => []
  | kv :: rest => paramEntriesFor modelProfile kv ++ paramEntriesList modelProfile rest

/-- Closed form of all warnings the params loop contributes. -/
def paramWarningsList (modelProfile : Option ModelProfile) (profile : String)
    (hasEmitter : Bool) : List (String × String) → List ParameterWarning
  | [] => []
  | kv :: rest =>
      paramWarningsFor modelProfile profile hasEmitter kv ++
        paramWarningsList modelProfile profile hasEmitter rest

end Merci

namespace Merci

theorem mergeFrags_nil (c : ToolCallAcc) : mergeFrags c [] = c := rfl

theorem mergeFrags_cons (c : ToolCallAcc) (f : Frag) (fs : List Frag) :
    mergeFrags c (f :: fs) = mergeFrags (mergeFrag c f) fs := rfl

theorem lookupAcc_updateAcc (m : Acc) (j i : Int) (id nm ct : Option String) :
    lookupAcc (updateAcc m j id nm ct) i =
      if i = j then some (mergeFragment ((lookupAcc m j).getD freshAcc) id nm ct)
      else lookupAcc m i := by
  induction m with
  | nil =>
      by_cases h : i = j
      · subst h
        simp [updateAcc, lookupAcc, freshAcc]
      · have h2 : ¬ j = i := fun hh => h hh.symm
        simp [updateAcc, lookupAcc, h, h2]
  | cons p rest ih =>
      obtain ⟨k, v⟩ := p
      by_cases hk : k = j
      · subst hk
        by_cases h : i = k
        · subst h
          simp [updateAcc, lookupAcc]
        · have h2 : ¬ k = i := fun hh => h hh.symm
          simp [updateAcc, lookupAcc, h, h2]
      · by_cases h : i = k
        · subst h
          have h2 : ¬ i = j := fun hh => hk (hh ▸ rfl)
          simp [updateAcc, lookupAcc, hk, h2]
        · have h2 : ¬ k = i := fun hh => h hh.symm
          simp [updateAcc, lookupAcc, hk, h2, ih]

theorem lookupAcc_applyFrags (fs : List Frag) (m : Acc) (i : Int) :
    lookupAcc (applyFrags m fs) i = mergeInto (lookupAcc m i) (fragsAt i fs) := by
  induction fs generalizing m with
  | nil =>
      cases h : lookupAcc m i <;> simp [applyFrags, fragsAt, mergeInto, h, mergeFrags]
  | cons f fs ih =>
      have step : applyFrags m (f :: fs) = applyFrags (applyFrag m f) fs := rfl
      rw [step, ih]
      have hlook : lookupAcc (applyFrag m f) i =
          if i = f.idx then
            some (mergeFragment ((lookupAcc m f.idx).getD freshAcc) f.id f.name f.content)
          else lookupAcc m i := lookupAcc_updateAcc m f.idx i f.id f.name f.content
      by_cases hidx : f.idx = i
      · rw [hidx] at hlook
        rw [hlook, if_pos rfl]
        have hfilter : fragsAt i (f :: fs) = f :: fragsAt i fs := by
          simp [fragsAt, List.filter_cons, hidx]
        rw [hfilter]
        cases h : lookupAcc m i with
        | none =>
            cases hgs : fragsAt i fs <;>
              simp [mergeInto, mergeFrags_cons, mergeFrag, mergeFrags]
        | some c =>
            simp [mergeInto, mergeFrags_cons, mergeFrag]
      · have hfilter : fragsAt i (f :: fs) = fragsAt i fs := by
          simp [fragsAt, List.filter_cons, hidx]
        rw [hfilter, hlook, if_neg (fun hh => hidx hh.symm)]

theorem mergeFrags_arguments (fs : List Frag) (c : ToolCallAcc) :
    (mergeFrags c fs).arguments = c.arguments ++ textConcat (fs.map Frag.text) := by
  induction fs generalizing c with
  | nil => simp [mergeFrags, textConcat]
  | cons f fs ih =>
      rw [mergeFrags_cons, ih]
      simp [mergeFrag, mergeFragment, textConcat, Frag.text, String.append_assoc]

theorem mergeFrags_id (fs : List Frag) (c : ToolCallAcc) :
    (mergeFrags c fs).id = lastTruthy c.id (fs.map Frag.id) := by
  induction fs generalizing c with
  | nil => simp [mergeFrags, lastTruthy]
  | cons f fs ih =>
      rw [mergeFrags_cons, ih]
      simp [mergeFrag, mergeFragment, lastTruthy]

theorem mergeFrags_name (fs : List Frag) (c : ToolCallAcc) :
    (mergeFrags c fs).name = lastTruthy c.name (fs.map Frag.name) := by
  induction fs generalizing c with
  | nil => simp [mergeFrags, lastTruthy]
  | cons f fs ih =>
      rw [mergeFrags_cons, ih]
      simp [mergeFrag, mergeFragment, lastTruthy]

theorem getLast?_cons_getD {α : Type} (t : List α) (x init : α) :
    ((x :: t).getLast?).getD init = (t.getLast?).getD x := by
  induction t generalizing x init with
  | nil => simp
  | cons y t ih =>
      rw [List.getLast?_cons_cons]
      rw [ih y init, ih y x]

theorem lastTruthy_eq (l : List (Option String)) (init : Option String) :
    lastTruthy init l = ((l.filter (fun o => isTruthy o)).getLast?).getD init := by
  induction l generalizing init with
  | nil => simp [lastTruthy]
  | cons x l ih =>
      have step : lastTruthy init (x :: l) = lastTruthy (setField init x) l := rfl
      rw [step, ih]
      by_cases hx : isTruthy x
      · rw [List.filter_cons_of_pos hx, getLast?_cons_getD]
        simp [setField, hx]
      · rw [List.filter_cons_of_neg (by simp [hx])]
        simp [setField, hx]

theorem lastTruthy_none_eq_lastCarried (l : List (Option String)) :
    lastTruthy none l = lastCarried l := lastTruthy_eq l none

theorem processLines_append_ok {s s1 s2 : SSEState} {e1 e2 : List StreamEvent}
    (l1 l2 : List SSELine)
    (h1 : SSEParser.processLines s l1 = .ok (e1, s1))
    (h2 : SSEParser.processLines s1 l2 = .ok (e2, s2)) :
    SSEParser.processLines s (l1 ++ l2) = .ok (e1 ++ e2, s2) := by
  induction l1 generalizing s e1 with
  | nil =>
      simp [SSEParser.processLines] at h1
      obtain ⟨rfl, rfl⟩ := h1
      simpa using h2
  | cons l ls ih =>
      cases hp : SSEParser.parseLine s l with
      | error e => simp [SSEParser.processLines, hp] at h1
      | ok p =>
          obtain ⟨ev, s3⟩ := p
          cases hr : SSEParser.processLines s3 ls with
          | error e => simp [SSEParser.processLines, hp, hr] at h1
          | ok q =>
              obtain ⟨evs, s4⟩ := q
              simp [SSEParser.processLines, hp, hr] at h1
              obtain ⟨rfl, rfl⟩ := h1
              have := ih hr
              simp [SSEParser.processLines, hp, this, List.append_assoc]

theorem processLines_fragLines (fs : List Frag) (s : SSEState) :
    SSEParser.processLines s (fs.map Frag.line) =
      .ok ([], { s with toolCallsInProgress := applyFrags s.toolCallsInProgress fs }) := by
  induction fs generalizing s with
  | nil => simp [SSEParser.processLines, applyFrags]
  | cons f fs ih =>
      simp [SSEParser.processLines, SSEParser.parseLine, Frag.line, handleRecord, ih,
        applyFrags, applyFrag, Frag.idx]

theorem parseLine_flush (s : SSEState) (reason : String) (h : reason ∈ flushReasons) :
    SSEParser.parseLine s (.dataLine (.finishMetadata (some reason))) =
      .ok (none,
        ⟨s.finalizedToolCalls ++ (sortEntries s.toolCallsInProgress).map Prod.snd, []⟩) := by
  simp [SSEParser.parseLine, handleRecord, h]

theorem sortEntries_sorted (m : Acc) : List.Sorted entryLE (sortEntries m) :=
  List.sorted_insertionSort entryLE m

theorem sortEntries_perm (m : Acc) : List.Perm (sortEntries m) m :=
  List.perm_insertionSort entryLE m

theorem sortEntries_keys_sorted (m : Acc) :
    List.Sorted (fun a b : Int => a ≤ b) ((sortEntries m).map Prod.fst) := by
  have h := sortEntries_sorted m
  exact (List.pairwise_map).mpr h

end Merci

namespace Merci

theorem mergeFrags_fresh (gs : List Frag) :
    mergeFrags freshAcc gs =
      { id := lastCarried (gs.map Frag.id)
        name := lastCarried (gs.map Frag.name)
        arguments := textConcat (gs.map Frag.text) } := by
  have h1 := mergeFrags_id gs freshAcc
  have h2 := mergeFrags_name gs freshAcc
  have h3 := mergeFrags_arguments gs freshAcc
  have heta : mergeFrags freshAcc gs =
      ⟨(mergeFrags freshAcc gs).id, (mergeFrags freshAcc gs).name,
       (mergeFrags freshAcc gs).arguments⟩ := rfl
  rw [heta, h1, h2, h3]
  simp [freshAcc, lastTruthy_none_eq_lastCarried]

theorem lastCarried_ne_none (l : List (Option String)) :
    lastCarried l ≠ none ↔ ∃ o ∈ l, isTruthy o = true := by
  unfold lastCarried
  cases hf : l.filter (fun o => isTruthy o) with
  | nil =>
      rw [List.filter_eq_nil_iff] at hf
      simp
      intro o ho
      have := hf o ho
      simpa using this
  | cons x xs =>
      cases hv : (x :: xs : List (Option String)).getLast? with
      | none => exact absurd (List.getLast?_eq_none_iff.mp hv) (by simp)
      | some v =>
      have hvmem : v ∈ x :: xs := List.mem_of_mem_getLast? (Option.mem_def.mpr hv)
      have hvfil : v ∈ l.filter (fun o => isTruthy o) := hf ▸ hvmem
      have hvl : v ∈ l := (List.mem_filter.mp hvfil).1
      have hvt : isTruthy v = true := by simpa using (List.mem_filter.mp hvfil).2
      have hvne : v ≠ none := by
        cases v with
        | none => simp [isTruthy] at hvt
        | some s => simp
      simp only [Option.getD_some]
      constructor
      · intro _
        exact ⟨v, hvl, hvt⟩
      · intro _
        exact hvne

/-- C1 counterexample: two fragments for parallel index 0 both carry an id
(first `a`, then `b`); the finalized call's id is `b`, the last one, not the
first-arrival `a` the claim requires to be retained. -/
theorem c1_counterexample :
    SSEParser.processLines ⟨[], []⟩
        [Frag.line ⟨some 0, some "a", some "f", some "x"⟩,
         Frag.line ⟨some 0, some "b", none, some "y"⟩,
         .dataLine (.finishMetadata (some "tool_calls"))] =
      .ok ([], ⟨[⟨some "b", some "f", "xy"⟩], []⟩) ∧
    (some "b" : Option String) ≠ some "a" := by
  constructor
  · rfl
  · decide

/-- C1 (amended): for any stream of tool-call fragments followed by a
tool-calls finish signal, the finalized list is the accumulator sorted by
index, and the accumulated call at index `i` has the id and name carried by
the LAST fragment whose respective field was truthy (a later truthy id or name
overwrites an earlier one) and an argument string that is the concatenation,
in arrival order, of the argument-text fields of all fragments for `i`. -/
theorem c1_fragment_reassembly (fs : List Frag) (i : Int)
    (h : fragsAt i fs ≠ []) :
    SSEParser.processLines ⟨[], []⟩
        (fs.map Frag.line ++ [.dataLine (.finishMetadata (some "tool_calls"))]) =
      .ok ([], ⟨(sortEntries (applyFrags [] fs)).map Prod.snd, []⟩) ∧
    lookupAcc (applyFrags [] fs) i =
      some { id := lastCarried ((fragsAt i fs).map Frag.id)
             name := lastCarried ((fragsAt i fs).map Frag.name)
             arguments := textConcat ((fragsAt i fs).map Frag.text) } := by
  constructor
  · have h1 := processLines_fragLines fs ⟨[], []⟩
    have h2 := parseLine_flush ⟨[], applyFrags [] fs⟩ "tool_calls" (by decide)
    have h3 : SSEParser.processLines ⟨[], applyFrags [] fs⟩
        [.dataLine (.finishMetadata (some "tool_calls"))] =
        .ok ([], ⟨(sortEntries (applyFrags [] fs)).map Prod.snd, []⟩) := by
      simp [SSEParser.processLines, h2]
    have h4 := processLines_append_ok (fs.map Frag.line)
      [.dataLine (.finishMetadata (some "tool_calls"))] h1 h3
    simpa using h4
  · rw [lookupAcc_applyFrags]
    have hnil : lookupAcc [] i = none := rfl
    rw [hnil]
    cases hgs : fragsAt i fs with
    | nil => exact absurd hgs h
    | cons g gs =>
        simp only [mergeInto]
        rw [mergeFrags_fresh]

/-- C1 witness: a call for index 0 split across two fragments (id and name on
the first, argument text split `ab` then `cd`) reassembles to the full call. -/
theorem c1_witness :
    fragsAt 0 [⟨none, some "id0", some "wx", some "ab"⟩,
               ⟨some 0, none, none, some "cd"⟩] ≠ [] ∧
    (SSEParser.processLines ⟨[], []⟩
        (([⟨none, some "id0", some "wx", some "ab"⟩,
           ⟨some 0, none, none, some "cd"⟩] : List Frag).map Frag.line ++
          [.dataLine (.finishMetadata (some "tool_calls"))]) =
      .ok ([], ⟨(sortEntries (applyFrags []
          [⟨none, some "id0", some "wx", some "ab"⟩,
           ⟨some 0, none, none, some "cd"⟩])).map Prod.snd, []⟩) ∧
    lookupAcc (applyFrags [] [⟨none, some "id0", some "wx", some "ab"⟩,
                              ⟨some 0, none, none, some "cd"⟩]) 0 =
      some { id := lastCarried ((fragsAt 0 [⟨none, some "id0", some "wx", some "ab"⟩,
                                            ⟨some 0, none, none, some "cd"⟩]).map Frag.id)
             name := lastCarried ((fragsAt 0 [⟨none, some "id0", some "wx", some "ab"⟩,
                                              ⟨some 0, none, none, some "cd"⟩]).map Frag.name)
             arguments := textConcat ((fragsAt 0 [⟨none, some "id0", some "wx", some "ab"⟩,
                                                  ⟨some 0, none, none, some "cd"⟩]).map Frag.text) }) :=
  ⟨by decide,
   c1_fragment_reassembly
     [⟨none, some "id0", some "wx", some "ab"⟩, ⟨some 0, none, none, some "cd"⟩] 0
     (by decide)⟩

end Merci

namespace Merci

/-- C2 (confirmed): a finish-signal whose reason denotes tool calls (or an
equivalent terminal code: `tool_call`, `tool_calls`, `stop`) flushes the
accumulator — the entries are appended to the finalized list sorted by
ascending parallel index independent of arrival order (the sorted entries are
a permutation of the accumulator with ascending keys) and the accumulator is
cleared; in particular fragments for indices 2, 0, 1 arriving in that order
finalize as the call list ordered by index 0, 1, 2. -/
theorem c2_flush_sorted (s : SSEState) (reason : String) (h : reason ∈ flushReasons) :
    SSEParser.parseLine s (.dataLine (.finishMetadata (some reason))) =
      .ok (none,
        ⟨s.finalizedToolCalls ++ (sortEntries s.toolCallsInProgress).map Prod.snd, []⟩) ∧
    List.Sorted (fun a b : Int => a ≤ b) ((sortEntries s.toolCallsInProgress).map Prod.fst) ∧
    List.Perm (sortEntries s.toolCallsInProgress) s.toolCallsInProgress ∧
    SSEParser.processLines ⟨[], []⟩
        [Frag.line ⟨some 2, some "i2", some "t2", some "a2"⟩,
         Frag.line ⟨some 0, some "i0", some "t0", some "a0"⟩,
         Frag.line ⟨some 1, some "i1", some "t1", some "a1"⟩,
         .dataLine (.finishMetadata (some "tool_calls"))] =
      .ok ([], ⟨[⟨some "i0", some "t0", "a0"⟩, ⟨some "i1", some "t1", "a1"⟩,
                 ⟨some "i2", some "t2", "a2"⟩], []⟩) := by
  refine ⟨parseLine_flush s reason h, sortEntries_keys_sorted _, sortEntries_perm _, ?_⟩
  rfl

/-- C2 witness: the flush on reason `tool_calls` at a concrete parser state
with in-flight entries for indices 2 and 0. -/
theorem c2_witness :
    "tool_calls" ∈ flushReasons ∧
    (SSEParser.parseLine ⟨[], [(2, ⟨some "x", none, "p"⟩), (0, ⟨none, some "y", "q"⟩)]⟩
        (.dataLine (.finishMetadata (some "tool_calls"))) =
      .ok (none,
        ⟨(⟨[], [(2, ⟨some "x", none, "p"⟩), (0, ⟨none, some "y", "q"⟩)]⟩ :
            SSEState).finalizedToolCalls ++
          (sortEntries (⟨[], [(2, ⟨some "x", none, "p"⟩), (0, ⟨none, some "y", "q"⟩)]⟩ :
            SSEState).toolCallsInProgress).map Prod.snd, []⟩) ∧
    List.Sorted (fun a b : Int => a ≤ b)
      ((sortEntries (⟨[], [(2, ⟨some "x", none, "p"⟩), (0, ⟨none, some "y", "q"⟩)]⟩ :
          SSEState).toolCallsInProgress).map Prod.fst) ∧
    List.Perm
      (sortEntries (⟨[], [(2, ⟨some "x", none, "p"⟩), (0, ⟨none, some "y", "q"⟩)]⟩ :
          SSEState).toolCallsInProgress)
      (⟨[], [(2, ⟨some "x", none, "p"⟩), (0, ⟨none, some "y", "q"⟩)]⟩ :
          SSEState).toolCallsInProgress ∧
    SSEParser.processLines ⟨[], []⟩
        [Frag.line ⟨some 2, some "i2", some "t2", some "a2"⟩,
         Frag.line ⟨some 0, some "i0", some "t0", some "a0"⟩,
         Frag.line ⟨some 1, some "i1", some "t1", some "a1"⟩,
         .dataLine (.finishMetadata (some "tool_calls"))] =
      .ok ([], ⟨[⟨some "i0", some "t0", "a0"⟩, ⟨some "i1", some "t1", "a1"⟩,
                 ⟨some "i2", some "t2", "a2"⟩], []⟩)) :=
  ⟨by decide,
   c2_flush_sorted ⟨[], [(2, ⟨some "x", none, "p"⟩), (0, ⟨none, some "y", "q"⟩)]⟩
     "tool_calls" (by decide)⟩

/-- C3 counterexample: the v2.11.0 stream parser, fed a data line whose
payload fails JSON decoding, raises nothing (its result type has no error
channel): it returns no event and leaves the state unchanged — the line is
ignored, contradicting the claim that the stream event parser raises. -/
theorem c3_counterexample :
    SSEParser11.parseLine ⟨[], []⟩ .malformed = (none, ⟨[], []⟩) := rfl

/-- C3 (amended): only the v2.14.0 stream parser raises a stream-protocol
error (`SSEError`, the `Except.error` outcome) on a data line whose payload
fails structural decoding; the v2.11.0 variant instead silently ignores such a
line, producing no event and leaving its state unchanged. -/
theorem c3_malformed_line (s : SSEState) :
    SSEParser.parseLine s .malformed = .error () ∧
    SSEParser11.parseLine s .malformed = (none, s) :=
  ⟨rfl, rfl⟩

/-- C9 counterexample: a stream whose single tool-call fragment carries
neither id nor name finalizes, and is surfaced in the aggregate tool-calls
event, as a call with null id and null name. -/
theorem c9_counterexample :
    SSEParser.processLines ⟨[], []⟩
        [Frag.line ⟨some 0, none, none, some "x"⟩,
         .dataLine (.finishMetadata (some "tool_calls"))] =
      .ok ([], ⟨[⟨none, none, "x"⟩], []⟩) ∧
    SSEParser.finalToolCallEvents ⟨[⟨none, none, "x"⟩], []⟩ =
      [.toolCalls [⟨none, none, "x"⟩]] ∧
    (⟨none, none, "x"⟩ : ToolCallAcc).id = none ∧
    (⟨none, none, "x"⟩ : ToolCallAcc).name = none := by
  refine ⟨rfl, rfl, rfl, rfl⟩

/-- C9 (amended): the parser does not enforce non-null ids or names — the
accumulated call at index `i` has a non-null id (resp. name) exactly when at
least one fragment for `i` carried a truthy id (resp. name), and its argument
string is the concatenation of the fragments' argument texts; nullness is
never checked before the call is surfaced. -/
theorem c9_id_name_presence (fs : List Frag) (i : Int) (h : fragsAt i fs ≠ []) :
    ∃ c, lookupAcc (applyFrags [] fs) i = some c ∧
      (c.id ≠ none ↔ ∃ f ∈ fragsAt i fs, isTruthy f.id = true) ∧
      (c.name ≠ none ↔ ∃ f ∈ fragsAt i fs, isTruthy f.name = true) ∧
      c.arguments = textConcat ((fragsAt i fs).map Frag.text) := by
  rw [lookupAcc_applyFrags]
  have hnil : lookupAcc [] i = none := rfl
  rw [hnil]
  cases hgs : fragsAt i fs with
  | nil => exact absurd hgs h
  | cons g gs =>
      refine ⟨mergeFrags freshAcc (g :: gs), by simp [mergeInto], ?_, ?_, ?_⟩
      · rw [mergeFrags_fresh]
        have := lastCarried_ne_none ((g :: gs).map Frag.id)
        simp only [this]
        constructor
        · rintro ⟨o, ho, hot⟩
          obtain ⟨f, hf, rfl⟩ := List.mem_map.mp ho
          exact ⟨f, hgs ▸ hf, hot⟩
        · rintro ⟨f, hf, hot⟩
          exact ⟨f.id, List.mem_map.mpr ⟨f, hgs ▸ hf, rfl⟩, hot⟩
      · rw [mergeFrags_fresh]
        have := lastCarried_ne_none ((g :: gs).map Frag.name)
        simp only [this]
        constructor
        · rintro ⟨o, ho, hot⟩
          obtain ⟨f, hf, rfl⟩ := List.mem_map.mp ho
          exact ⟨f, hgs ▸ hf, hot⟩
        · rintro ⟨f, hf, hot⟩
          exact ⟨f.name, List.mem_map.mpr ⟨f, hgs ▸ hf, rfl⟩, hot⟩
      · rw [mergeFrags_fresh]

/-- C9 witness: one fragment carrying only an id and one carrying only a name
for index 0 give an accumulated call with both fields non-null. -/
theorem c9_witness :
    fragsAt 0 [⟨some 0, some "idA", none, some "u"⟩,
               ⟨some 0, none, some "nmB", some "v"⟩] ≠ [] ∧
    (∃ c, lookupAcc (applyFrags [] [⟨some 0, some "idA", none, some "u"⟩,
                                    ⟨some 0, none, some "nmB", some "v"⟩]) 0 = some c ∧
      (c.id ≠ none ↔ ∃ f ∈ fragsAt 0 [⟨some 0, some "idA", none, some "u"⟩,
                                      ⟨some 0, none, some "nmB", some "v"⟩],
          isTruthy f.id = true) ∧
      (c.name ≠ none ↔ ∃ f ∈ fragsAt 0 [⟨some 0, some "idA", none, some "u"⟩,
                                        ⟨some 0, none, some "nmB", some "v"⟩],
          isTruthy f.name = true) ∧
      c.arguments = textConcat ((fragsAt 0 [⟨some 0, some "idA", none, some "u"⟩,
                                            ⟨some 0, none, some "nmB", some "v"⟩]).map
          Frag.text)) :=
  ⟨by decide,
   c9_id_name_presence [⟨some 0, some "idA", none, some "u"⟩,
                        ⟨some 0, none, some "nmB", some "v"⟩] 0 (by decide)⟩

/-- C10 counterexample: with an explicit fragment at index `-1` alongside an
index-less fragment (index 0 by default), the finalized list puts the
negative-index call first: the index-0 call does not sort first. -/
theorem c10_counterexample :
    SSEParser.processLines ⟨[], []⟩
        [Frag.line ⟨some (-1), some "in", some "tn", some "an"⟩,
         Frag.line ⟨none, some "i0", some "t0", some "a0"⟩,
         .dataLine (.finishMetadata (some "tool_calls"))] =
      .ok ([], ⟨[⟨some "in", some "tn", "an"⟩, ⟨some "i0", some "t0", "a0"⟩], []⟩) ∧
    ([⟨some "in", some "tn", "an"⟩, ⟨some "i0", some "t0", "a0"⟩] :
        List ToolCallAcc).head? ≠ some ⟨some "i0", some "t0", "a0"⟩ := by
  refine ⟨rfl, by decide⟩

/-- C10 (amended): in both stream-parser variants a tool-call fragment lacking
the parallel-index field is processed exactly as one carrying index 0, so all
index-less fragments merge into the single accumulated call at index 0; that
entry sorts first at finalization whenever every explicit index in the
accumulator is nonnegative (an explicit negative index would sort before it). -/
theorem c10_default_index (s : SSEState) (id nm ct : Option String) (m : Acc)
    (h0 : (0 : Int) ∈ m.map Prod.fst) (hnn : ∀ k ∈ m.map Prod.fst, (0 : Int) ≤ k) :
    SSEParser.parseLine s (.dataLine (.toolCall none id nm ct)) =
      SSEParser.parseLine s (.dataLine (.toolCall (some 0) id nm ct)) ∧
    SSEParser11.parseLine s (.dataLine (.toolCall none id nm ct)) =
      SSEParser11.parseLine s (.dataLine (.toolCall (some 0) id nm ct)) ∧
    ((sortEntries m).head?).map Prod.fst = some 0 := by
  refine ⟨rfl, rfl, ?_⟩
  have hperm : List.Perm (sortEntries m) m := sortEntries_perm m
  have hsorted := sortEntries_sorted m
  cases hs : sortEntries m with
  | nil =>
      rw [hs] at hperm
      have : m = [] := hperm.symm.eq_nil
      rw [this] at h0
      simp at h0
  | cons p rest =>
      rw [hs] at hperm hsorted
      have hple : ∀ q ∈ rest, p.1 ≤ q.1 := by
        intro q hq
        exact (List.sorted_cons.mp hsorted).1 q hq
      have h0mem : (0 : Int) ∈ (p :: rest).map Prod.fst := by
        have : List.Perm ((p :: rest).map Prod.fst) (m.map Prod.fst) := hperm.map Prod.fst
        exact this.mem_iff.mpr h0
      have hpge : (0 : Int) ≤ p.1 := by
        apply hnn
        have : List.Perm ((p :: rest).map Prod.fst) (m.map Prod.fst) := hperm.map Prod.fst
        exact this.mem_iff.mp (by simp)
      have hple0 : p.1 ≤ 0 := by
        rcases List.mem_map.mp h0mem with ⟨q, hq, hq0⟩
        rcases List.mem_cons.mp hq with rfl | hqrest
        · exact le_of_eq hq0
        · exact hq0 ▸ hple q hqrest
      have : p.1 = 0 := le_antisymm hple0 hpge
      simp [this]

/-- C10 witness: an accumulator holding indices 1 and 0 sorts the index-0
entry first, and an index-less fragment is handled as index 0 by both
parsers. -/
theorem c10_witness :
    (0 : Int) ∈ ([(1, ⟨some "a", none, ""⟩), (0, ⟨some "b", none, ""⟩)] :
        Acc).map Prod.fst ∧
    (∀ k ∈ ([(1, ⟨some "a", none, ""⟩), (0, ⟨some "b", none, ""⟩)] :
        Acc).map Prod.fst, (0 : Int) ≤ k) ∧
    (SSEParser.parseLine ⟨[], []⟩ (.dataLine (.toolCall none (some "x") none none)) =
      SSEParser.parseLine ⟨[], []⟩ (.dataLine (.toolCall (some 0) (some "x") none none)) ∧
    SSEParser11.parseLine ⟨[], []⟩ (.dataLine (.toolCall none (some "x") none none)) =
      SSEParser11.parseLine ⟨[], []⟩ (.dataLine (.toolCall (some 0) (some "x") none none)) ∧
    ((sortEntries [(1, ⟨some "a", none, ""⟩),
                   (0, ⟨some "b", none, ""⟩)]).head?).map Prod.fst = some 0) :=
  ⟨by decide, by decide,
   c10_default_index ⟨[], []⟩ (some "x") none none
     [(1, ⟨some "a", none, ""⟩), (0, ⟨some "b", none, ""⟩)] (by decide) (by decide)⟩

end Merci

namespace Merci

theorem paramStep_eq (mp : Option ModelProfile) (profile : String) (he : Bool)
    (acc : List DataEntry × List ParameterWarning) (kv : String × String) :
    paramStep mp profile he acc kv =
      (acc.1 ++ paramEntriesFor mp kv, acc.2 ++ paramWarningsFor mp profile he kv) := by
  unfold paramStep paramEntriesFor paramWarningsFor
  cases LLMParameters kv.1 with
  | none => simp
  | some d =>
      by_cases hx : excludedBy mp d.fqdn = true
      · simp [hx]
      · simp [hx]

theorem foldl_paramStep (mp : Option ModelProfile) (profile : String) (he : Bool)
    (l : List (String × String)) (a : List DataEntry) (b : List ParameterWarning) :
    l.foldl (paramStep mp profile he) (a, b) =
      (a ++ paramEntriesList mp l, b ++ paramWarningsList mp profile he l) := by
  induction l generalizing a b with
  | nil => simp [paramEntriesList, paramWarningsList]
  | cons kv l ih =>
      rw [List.foldl_cons, paramStep_eq, ih]
      simp [paramEntriesList, paramWarningsList, List.append_assoc]


theorem excludedBy_some (mp : ModelProfile) (f : String) :
    excludedBy (some mp) f = decide (f ∉ mp.params) := rfl

theorem excludedBy_none (f : String) : excludedBy none f = false := rfl

theorem toolsBlock_some (tools : List ToolDef) (mp : ModelProfile) :
    toolsBlock tools (some mp) =
      if tools.length > 0 then
        (if fqdnOf "TOOLS" ∈ mp.params then
          [.keyEntry (typeOf "TOOLS") (fqdnOf "TOOLS"),
           .valueEntry "json" (.toolList (tools.map serializableTool))]
         else [])
      else [] := rfl

theorem toolsBlock_none (tools : List ToolDef) :
    toolsBlock tools none =
      if tools.length > 0 then
        [.keyEntry (typeOf "TOOLS") (fqdnOf "TOOLS"),
         .valueEntry "json" (.toolList (tools.map serializableTool))]
      else [] := rfl

theorem paramEntriesFor_def {kv : String × String} {d : ParamDef}
    (mp : Option ModelProfile) (hd : LLMParameters kv.1 = some d) :
    paramEntriesFor mp kv =
      if excludedBy mp d.fqdn = true then []
      else [.keyEntry d.type d.fqdn,
            .valueEntry d.type (serializeValue d.type kv.2)] := by
  unfold paramEntriesFor
  rw [hd]

theorem paramWarningsFor_def {kv : String × String} {d : ParamDef}
    (mp : Option ModelProfile) (profile : String) (he : Bool)
    (hd : LLMParameters kv.1 = some d) :
    paramWarningsFor mp profile he kv =
      if excludedBy mp d.fqdn = true then (if he then [⟨kv.1, profile⟩] else [])
      else [] := by
  unfold paramWarningsFor
  rw [hd]

theorem paramWarningsFor_unknown {kv : String × String}
    (mp : Option ModelProfile) (profile : String) (he : Bool)
    (hd : LLMParameters kv.1 = none) :
    paramWarningsFor mp profile he kv = [] := by
  unfold paramWarningsFor
  rw [hd]

theorem paramEntriesFor_unknown {kv : String × String}
    (mp : Option ModelProfile) (hd : LLMParameters kv.1 = none) :
    paramEntriesFor mp kv = [] := by
  unfold paramEntriesFor
  rw [hd]

theorem buildParametersArray_eq (params : List (String × String)) (tools : List ToolDef)
    (profile : String) (he : Bool) :
    buildParametersArray params tools profile he =
      (let L := toolsBlock tools (modelProfiles profile) ++
          paramEntriesList (modelProfiles profile) params
       (if L.length > 0 then some L else none,
        paramWarningsList (modelProfiles profile) profile he params)) := by
  unfold buildParametersArray
  dsimp only
  rw [foldl_paramStep]
  simp

theorem optData_getD (L : List DataEntry) :
    ((if L.length > 0 then some L else none).getD []) = L := by
  cases L <;> simp

theorem mem_paramEntriesList {mp : Option ModelProfile} {l : List (String × String)}
    {e : DataEntry} (h : e ∈ paramEntriesList mp l) :
    ∃ kv ∈ l, e ∈ paramEntriesFor mp kv := by
  induction l with
  | nil => simp [paramEntriesList] at h
  | cons kv l ih =>
      rw [paramEntriesList, List.mem_append] at h
      rcases h with h | h
      · exact ⟨kv, List.mem_cons_self kv l, h⟩
      · obtain ⟨kv2, hkv2, he2⟩ := ih h
        exact ⟨kv2, List.mem_cons_of_mem kv hkv2, he2⟩

theorem paramEntriesFor_sub (l : List (String × String)) (kv : String × String)
    (hkv : kv ∈ l) (mp : Option ModelProfile) {e : DataEntry}
    (he : e ∈ paramEntriesFor mp kv) : e ∈ paramEntriesList mp l := by
  induction l with
  | nil => simp at hkv
  | cons kv2 l ih =>
      rw [paramEntriesList, List.mem_append]
      rcases List.mem_cons.mp hkv with rfl | hmem
      · exact Or.inl he
      · exact Or.inr (ih hmem)

theorem keyEntry_of_paramEntriesFor {mp : ModelProfile} {kv : String × String}
    {t f : String} (h : DataEntry.keyEntry t f ∈ paramEntriesFor (some mp) kv) :
    f ∈ mp.params := by
  cases hd : LLMParameters kv.1 with
  | none => rw [paramEntriesFor_unknown (some mp) hd] at h; simp at h
  | some d =>
      rw [paramEntriesFor_def (some mp) hd] at h
      by_cases hx : excludedBy (some mp) d.fqdn = true
      · rw [if_pos hx] at h; simp at h
      · rw [if_neg hx] at h
        rw [excludedBy_some] at hx
        have hmem : d.fqdn ∈ mp.params := not_not.mp (by simpa using hx)
        rcases List.mem_cons.mp h with h1 | h1
        · have : f = d.fqdn := ((DataEntry.keyEntry.injEq ..).mp h1).2
          exact this ▸ hmem
        · simp at h1

theorem keyEntry_of_toolsBlock {mp : ModelProfile} {tools : List ToolDef}
    {t f : String} (h : DataEntry.keyEntry t f ∈ toolsBlock tools (some mp)) :
    f ∈ mp.params := by
  rw [toolsBlock_some] at h
  by_cases ht : tools.length > 0
  · rw [if_pos ht] at h
    by_cases hm : fqdnOf "TOOLS" ∈ mp.params
    · rw [if_pos hm] at h
      rcases List.mem_cons.mp h with h1 | h1
      · have : f = fqdnOf "TOOLS" := ((DataEntry.keyEntry.injEq ..).mp h1).2
        exact this ▸ hm
      · simp at h1
    · rw [if_neg hm] at h; simp at h
  · rw [if_neg ht] at h; simp at h

theorem paramWarningsList_none (profile : String) (he : Bool)
    (l : List (String × String)) : paramWarningsList none profile he l = [] := by
  induction l with
  | nil => rfl
  | cons kv l ih =>
      rw [paramWarningsList, ih, List.append_nil]
      cases hd : LLMParameters kv.1 with
      | none => exact paramWarningsFor_unknown none profile he hd
      | some d =>
          rw [paramWarningsFor_def none profile he hd, excludedBy_none]
          simp

theorem warnings_filter_not_mem (mp : Option ModelProfile) (profile P : String)
    (he : Bool) (l : List (String × String)) (h : P ∉ l.map Prod.fst) :
    (paramWarningsList mp profile he l).filter (fun w => w.parameter == P) = [] := by
  induction l with
  | nil => rfl
  | cons kv l ih =>
      have hP1 : kv.1 ≠ P := by
        intro hc
        exact h (by simp [hc.symm])
      have hPl : P ∉ l.map Prod.fst := fun hc => h (by simp [hc])
      rw [paramWarningsList, List.filter_append, ih hPl, List.append_nil]
      cases hd : LLMParameters kv.1 with
      | none => rw [paramWarningsFor_unknown mp profile he hd]; rfl
      | some d =>
          rw [paramWarningsFor_def mp profile he hd]
          by_cases hx : excludedBy mp d.fqdn = true
          · rw [if_pos hx]
            cases he <;> simp [hP1]
          · rw [if_neg hx]; rfl

theorem warnings_filter_single (mp : ModelProfile) (profile P : String) (d : ParamDef)
    (hdef : LLMParameters P = some d) (hexcl : d.fqdn ∉ mp.params)
    (l : List (String × String)) (hnodup : (l.map Prod.fst).Nodup)
    (hmem : P ∈ l.map Prod.fst) :
    (paramWarningsList (some mp) profile true l).filter (fun w => w.parameter == P) =
      [⟨P, profile⟩] := by
  induction l with
  | nil => simp at hmem
  | cons kv l ih =>
      rw [List.map_cons, List.nodup_cons] at hnodup
      rw [paramWarningsList, List.filter_append]
      by_cases hP : kv.1 = P
      · have hPl : P ∉ l.map Prod.fst := hP ▸ hnodup.1
        rw [warnings_filter_not_mem _ _ _ _ _ hPl, List.append_nil]
        have hd2 : LLMParameters kv.1 = some d := by rw [hP, hdef]
        rw [paramWarningsFor_def (some mp) profile true hd2]
        have hx : excludedBy (some mp) d.fqdn = true := by
          rw [excludedBy_some]
          simpa using hexcl
        rw [if_pos hx, hP]
        simp
      · have hPl : P ∈ l.map Prod.fst := by
          rcases List.mem_cons.mp (List.map_cons Prod.fst kv l ▸ hmem) with h1 | h1
          · exact absurd h1.symm hP
          · exact h1
        rw [ih hnodup.2 hPl]
        have hhead : (paramWarningsFor (some mp) profile true kv).filter
            (fun w => w.parameter == P) = [] := by
          cases hd : LLMParameters kv.1 with
          | none => rw [paramWarningsFor_unknown (some mp) profile true hd]; rfl
          | some d2 =>
              rw [paramWarningsFor_def (some mp) profile true hd]
              by_cases hx : excludedBy (some mp) d2.fqdn = true
              · rw [if_pos hx]
                simp [hP]
              · rw [if_neg hx]; rfl
        rw [hhead]
        rfl

/-- C4 (confirmed): for a profile present in the capability registry and a
requested parameter whose wire key the profile's supported set excludes, the
assembled payload contains no wire entry for that parameter (no `fqdn`
declaration with its wire key appears in the data array), exactly one
capability warning naming the parameter and the profile is emitted, and the
payload is still assembled (the function is total and never fails). -/
theorem c4_capability_filtering (params : List (String × String)) (tools : List ToolDef)
    (profile P : String) (mp : ModelProfile) (d : ParamDef)
    (hprof : modelProfiles profile = some mp)
    (hdef : LLMParameters P = some d)
    (hexcl : d.fqdn ∉ mp.params)
    (hreq : P ∈ params.map Prod.fst)
    (hnodup : (params.map Prod.fst).Nodup) :
    (∀ t f, DataEntry.keyEntry t f ∈
        ((buildParametersArray params tools profile true).1.getD []) → f ≠ d.fqdn) ∧
    (buildParametersArray params tools profile true).2.filter
        (fun w => w.parameter == P) = [⟨P, profile⟩] := by
  rw [buildParametersArray_eq]
  simp only [hprof]
  constructor
  · intro t f hf
    rw [optData_getD, List.mem_append] at hf
    have hfin : f ∈ mp.params := by
      rcases hf with hf | hf
      · exact keyEntry_of_toolsBlock hf
      · obtain ⟨kv, _, he2⟩ := mem_paramEntriesList hf
        exact keyEntry_of_paramEntriesFor he2
    intro hc
    exact hexcl (hc ▸ hfin)
  · exact warnings_filter_single mp profile P d hdef hexcl params hnodup hreq

/-- C4 witness: profile `openai-chat-gpt` (present in the registry) with the
unsupported parameter `TOP_K` requested. -/
theorem c4_witness :
    modelProfiles "openai-chat-gpt" =
      some ⟨"OpenAI", paramGroups.OPENAI_GPT3_4 ++ paramGroups.COMMON_TOOLS⟩ ∧
    LLMParameters "TOP_K" = some ⟨"llm.parameters.top-k", "int"⟩ ∧
    "llm.parameters.top-k" ∉
      (⟨"OpenAI", paramGroups.OPENAI_GPT3_4 ++ paramGroups.COMMON_TOOLS⟩ :
        ModelProfile).params ∧
    "TOP_K" ∈ ([("TOP_K", "5")] : List (String × String)).map Prod.fst ∧
    (([("TOP_K", "5")] : List (String × String)).map Prod.fst).Nodup ∧
    ((∀ t f, DataEntry.keyEntry t f ∈
        ((buildParametersArray [("TOP_K", "5")] [] "openai-chat-gpt" true).1.getD []) →
      f ≠ (⟨"llm.parameters.top-k", "int"⟩ : ParamDef).fqdn) ∧
    (buildParametersArray [("TOP_K", "5")] [] "openai-chat-gpt" true).2.filter
        (fun w => w.parameter == "TOP_K") = [⟨"TOP_K", "openai-chat-gpt"⟩]) :=
  ⟨rfl, rfl, by decide, by decide, by decide,
   c4_capability_filtering [("TOP_K", "5")] [] "openai-chat-gpt" "TOP_K"
     ⟨"OpenAI", paramGroups.OPENAI_GPT3_4 ++ paramGroups.COMMON_TOOLS⟩
     ⟨"llm.parameters.top-k", "int"⟩ rfl rfl (by decide) (by decide) (by decide)⟩

/-- C5 (confirmed): for a profile identifier absent from the capability
registry no filtering is applied and no error is raised — no capability
warning is emitted, every requested parameter with a known definition has its
wire entry serialized into the payload, and the tools parameter entry is
included whenever tools are configured. -/
theorem c5_unknown_profile (params : List (String × String)) (tools : List ToolDef)
    (profile : String) (h : modelProfiles profile = none) :
    (buildParametersArray params tools profile true).2 = [] ∧
    (∀ kv ∈ params, ∀ d, LLMParameters kv.1 = some d →
      DataEntry.keyEntry d.type d.fqdn ∈
        ((buildParametersArray params tools profile true).1.getD [])) ∧
    (tools ≠ [] →
      DataEntry.keyEntry (typeOf "TOOLS") (fqdnOf "TOOLS") ∈
        ((buildParametersArray params tools profile true).1.getD [])) := by
  rw [buildParametersArray_eq]
  simp only [h]
  refine ⟨paramWarningsList_none profile true params, ?_, ?_⟩
  · intro kv hkv d hd
    rw [optData_getD, List.mem_append]
    right
    apply paramEntriesFor_sub params kv hkv
    rw [paramEntriesFor_def none hd, excludedBy_none]
    simp
  · intro ht
    rw [optData_getD, List.mem_append]
    left
    rw [toolsBlock_none, if_pos (by simpa [List.length_pos] using ht)]
    exact List.mem_cons_self ..

/-- C5 witness: unknown profile `mystery-model` with a requested temperature
and one configured tool. -/
theorem c5_witness :
    modelProfiles "mystery-model" = none ∧
    ((buildParametersArray [("TEMPERATURE", "1")] [⟨"t", "d", "p", 0⟩]
        "mystery-model" true).2 = [] ∧
    (∀ kv ∈ ([("TEMPERATURE", "1")] : List (String × String)), ∀ d,
      LLMParameters kv.1 = some d →
      DataEntry.keyEntry d.type d.fqdn ∈
        ((buildParametersArray [("TEMPERATURE", "1")] [⟨"t", "d", "p", 0⟩]
            "mystery-model" true).1.getD [])) ∧
    (([⟨"t", "d", "p", 0⟩] : List ToolDef) ≠ [] →
      DataEntry.keyEntry (typeOf "TOOLS") (fqdnOf "TOOLS") ∈
        ((buildParametersArray [("TEMPERATURE", "1")] [⟨"t", "d", "p", 0⟩]
            "mystery-model" true).1.getD []))) :=
  ⟨rfl,
   c5_unknown_profile [("TEMPERATURE", "1")] [⟨"t", "d", "p", 0⟩] "mystery-model" rfl⟩

end Merci

namespace Merci

theorem foldl_toolRound (L : List (ToolExecutionResult × ToolCall))
    (msgs : List ChatMessage) :
    L.foldl
      (fun acc rc =>
        acc ++ [createAssistantToolCallMessage rc.2.id rc.2.name rc.2.arguments,
                createToolResultMessage rc.2.id rc.2.name (resultValue rc.1)])
      msgs = msgs ++ toolRoundMessages L := by
  induction L generalizing msgs with
  | nil => simp [toolRoundMessages]
  | cons rc L ih =>
      rw [List.foldl_cons, ih]
      simp [toolRoundMessages]

theorem appendToolRound_eq (msgs : List ChatMessage) (calls : List ToolCall)
    (results : List ToolExecutionResult) :
    appendToolRound msgs calls results = msgs ++ toolRoundMessages (results.zip calls) := by
  unfold appendToolRound
  exact foldl_toolRound (results.zip calls) msgs

theorem toolRoundMessages_length (L : List (ToolExecutionResult × ToolCall)) :
    (toolRoundMessages L).length = 2 * L.length := by
  induction L with
  | nil => rfl
  | cons rc L ih =>
      rw [toolRoundMessages]
      simp [ih]
      ring

theorem step_content (env : RunEnv) (m : List ChatMessage) (f : Bool)
    (r : List ToolCall → List ToolExecutionResult) :
    (ChatSession.step env m f r).content = (env.modelTurn m f).1 := by
  unfold ChatSession.step
  dsimp only
  by_cases h : (env.modelTurn m f).2.length > 0
  · rw [if_pos h]
  · rw [if_neg h]

/-- C7 (confirmed): after one full tool round-trip of `step` (the model
requests `k` tool calls and the caller resumes with `k` per-call results), the
returned history is the input history with exactly the interleaved
call/result entries appended — two new entries per tool call, the
assistant-tool-call entry immediately followed by the matching tool-result
entry, in call order — every prior entry preserved in position, and a failed
per-call result folded in as a structured failure payload rather than
aborting the turn. -/
theorem c7_history_fidelity (env : RunEnv) (messages : List ChatMessage)
    (force : Bool) (resultsFor : List ToolCall → List ToolExecutionResult)
    (calls : List ToolCall) (results : List ToolExecutionResult)
    (hcalls : (env.modelTurn messages force).2 = calls)
    (hres : resultsFor calls = results)
    (hlen : results.length = calls.length)
    (hne : calls ≠ []) :
    (ChatSession.step env messages force resultsFor).messages =
      messages ++ toolRoundMessages (results.zip calls) ∧
    (ChatSession.step env messages force resultsFor).messages.length =
      messages.length + 2 * calls.length ∧
    (ChatSession.step env messages force resultsFor).messages.take messages.length =
      messages ∧
    (∀ rc ∈ results.zip calls, rc.1.success = false →
      resultValue rc.1 = ResultPayload.failure
        (if isTruthy rc.1.error then rc.1.error.getD ""
         else "Unknown execution error")) := by
  have hmain : (ChatSession.step env messages force resultsFor).messages =
      messages ++ toolRoundMessages (results.zip calls) := by
    unfold ChatSession.step
    dsimp only
    rw [hcalls, hres, if_pos (List.length_pos.mpr hne)]
    exact appendToolRound_eq messages calls results
  refine ⟨hmain, ?_, ?_, ?_⟩
  · rw [hmain]
    simp [toolRoundMessages_length, List.length_zip, hlen]
  · rw [hmain]
    exact List.take_left messages (toolRoundMessages (results.zip calls))
  · intro rc hrc hfail
    simp [resultValue, hfail]

/-- C7 witness: one tool call resumed with one failing result appends the
call entry and a structured-failure result entry to the history. -/
theorem c7_witness :
    ((⟨fun _ _ => ("", [⟨some "c1", some "tool", "args"⟩]),
        fun cs => cs.map fun _ => ⟨"tool", false, "", none⟩⟩ :
      RunEnv).modelTurn [ChatMessage.userMessage "q"] true).2 =
        [⟨some "c1", some "tool", "args"⟩] ∧
    ((fun cs => cs.map fun _ => (⟨"tool", false, "", none⟩ : ToolExecutionResult))
        [(⟨some "c1", some "tool", "args"⟩ : ToolCall)]) =
      [⟨"tool", false, "", none⟩] ∧
    ([(⟨"tool", false, "", none⟩ : ToolExecutionResult)]).length =
      ([(⟨some "c1", some "tool", "args"⟩ : ToolCall)]).length ∧
    ([(⟨some "c1", some "tool", "args"⟩ : ToolCall)]) ≠ [] ∧
    ((ChatSession.step
        ⟨fun _ _ => ("", [⟨some "c1", some "tool", "args"⟩]),
         fun cs => cs.map fun _ => ⟨"tool", false, "", none⟩⟩
        [ChatMessage.userMessage "q"] true
        (fun cs => cs.map fun _ => ⟨"tool", false, "", none⟩)).messages =
      [ChatMessage.userMessage "q"] ++
        toolRoundMessages ([⟨"tool", false, "", none⟩].zip
          [⟨some "c1", some "tool", "args"⟩]) ∧
    (ChatSession.step
        ⟨fun _ _ => ("", [⟨some "c1", some "tool", "args"⟩]),
         fun cs => cs.map fun _ => ⟨"tool", false, "", none⟩⟩
        [ChatMessage.userMessage "q"] true
        (fun cs => cs.map fun _ => ⟨"tool", false, "", none⟩)).messages.length =
      ([ChatMessage.userMessage "q"] : List ChatMessage).length +
        2 * ([(⟨some "c1", some "tool", "args"⟩ : ToolCall)]).length ∧
    (ChatSession.step
        ⟨fun _ _ => ("", [⟨some "c1", some "tool", "args"⟩]),
         fun cs => cs.map fun _ => ⟨"tool", false, "", none⟩⟩
        [ChatMessage.userMessage "q"] true
        (fun cs => cs.map fun _ => ⟨"tool", false, "", none⟩)).messages.take
        ([ChatMessage.userMessage "q"] : List ChatMessage).length =
      [ChatMessage.userMessage "q"] ∧
    (∀ rc ∈ ([⟨"tool", false, "", none⟩] :
        List ToolExecutionResult).zip [(⟨some "c1", some "tool", "args"⟩ : ToolCall)],
      rc.1.success = false →
      resultValue rc.1 = ResultPayload.failure
        (if isTruthy rc.1.error then rc.1.error.getD ""
         else "Unknown execution error"))) :=
  ⟨rfl, rfl, rfl, by decide,
   c7_history_fidelity
     ⟨fun _ _ => ("", [⟨some "c1", some "tool", "args"⟩]),
      fun cs => cs.map fun _ => ⟨"tool", false, "", none⟩⟩
     [ChatMessage.userMessage "q"] true
     (fun cs => cs.map fun _ => ⟨"tool", false, "", none⟩)
     [⟨some "c1", some "tool", "args"⟩] [⟨"tool", false, "", none⟩]
     rfl rfl rfl (by decide)⟩

end Merci

namespace Merci

theorem runAux_succ (env : RunEnv) (ms : List ChatMessage) (k : Nat) :
    ChatSession.runAux env ms (k + 1) =
      (if (ChatSession.step env ms (k == 0) env.execTools).usedTools = false then
        { result := (ChatSession.step env ms (k == 0) env.execTools).content
          turnFlags := [k == 0]
          warningCount := if (k == 0) = true then 1 else 0 }
      else if (ChatSession.step env ms (k == 0) env.execTools).content ≠ "" then
        { result := (ChatSession.step env ms (k == 0) env.execTools).content
          turnFlags := [k == 0]
          warningCount := if (k == 0) = true then 1 else 0 }
      else
        { result := (ChatSession.runAux env
            (ChatSession.step env ms (k == 0) env.execTools).messages k).result
          turnFlags := (k == 0) :: (ChatSession.runAux env
            (ChatSession.step env ms (k == 0) env.execTools).messages k).turnFlags
          warningCount := (if (k == 0) = true then 1 else 0) +
            (ChatSession.runAux env
              (ChatSession.step env ms (k == 0) env.execTools).messages k).warningCount }) := by
  simp only [ChatSession.runAux, Bool.not_eq_true', bne_iff_ne]

/-- C6 (confirmed): the automatic driver with a configured maximum number of
turns always returns either the fixed deterministic advisory fallback string
or the text of some model turn — budget exhaustion yields the fallback, never
an exception; with `maxIterations = 1` it performs exactly one network turn,
in forced-text mode, with exactly one advisory warning emitted, before
returning either the model's text or the fallback string. -/
theorem c6_run_budget (env : RunEnv) (messages : List ChatMessage) (n : Nat) :
    ((ChatSession.run env n messages).result = fallbackMessage ∨
      ∃ ms f, (ChatSession.run env n messages).result = (env.modelTurn ms f).1) ∧
    (ChatSession.run env 1 messages).turnFlags = [true] ∧
    (ChatSession.run env 1 messages).warningCount = 1 ∧
    ((ChatSession.run env 1 messages).result = (env.modelTurn messages true).1 ∨
      (ChatSession.run env 1 messages).result = fallbackMessage) := by
  have hgen : ∀ (k : Nat) (ms : List ChatMessage),
      (ChatSession.runAux env ms k).result = fallbackMessage ∨
        ∃ ms2 f, (ChatSession.runAux env ms k).result = (env.modelTurn ms2 f).1 := by
    intro k
    induction k with
    | zero => intro ms; left; rfl
    | succ k ih =>
        intro ms
        rw [runAux_succ]
        by_cases h1 : (ChatSession.step env ms (k == 0) env.execTools).usedTools = false
        · rw [if_pos h1]
          right
          exact ⟨ms, (k == 0), step_content env ms (k == 0) env.execTools⟩
        · rw [if_neg h1]
          by_cases h2 : (ChatSession.step env ms (k == 0) env.execTools).content ≠ ""
          · rw [if_pos h2]
            right
            exact ⟨ms, (k == 0), step_content env ms (k == 0) env.execTools⟩
          · rw [if_neg h2]
            rcases ih (ChatSession.step env ms (k == 0) env.execTools).messages with
              hfb | ⟨ms2, f, hm⟩
            · left; exact hfb
            · right; exact ⟨ms2, f, hm⟩
  have hone : (ChatSession.runAux env messages 1).turnFlags = [true] ∧
      (ChatSession.runAux env messages 1).warningCount = 1 ∧
      ((ChatSession.runAux env messages 1).result = (env.modelTurn messages true).1 ∨
        (ChatSession.runAux env messages 1).result = fallbackMessage) := by
    have h01 : (1 : Nat) = 0 + 1 := rfl
    rw [h01, runAux_succ]
    by_cases h1 : (ChatSession.step env messages (0 == 0) env.execTools).usedTools = false
    · rw [if_pos h1]
      exact ⟨rfl, rfl, Or.inl (step_content env messages (0 == 0) env.execTools)⟩
    · rw [if_neg h1]
      by_cases h2 : (ChatSession.step env messages (0 == 0) env.execTools).content ≠ ""
      · rw [if_pos h2]
        exact ⟨rfl, rfl, Or.inl (step_content env messages (0 == 0) env.execTools)⟩
      · rw [if_neg h2]
        exact ⟨rfl, rfl, Or.inr rfl⟩
  exact ⟨hgen n messages, hone.1, hone.2.1, hone.2.2⟩

/-- C8 counterexample: a history that contains a system message but does not
start with one — the claim requires the configured system message to be
prepended, but the builder leaves the list unchanged. -/
theorem c8_counterexample :
    ([ChatMessage.userMessage "hi", ChatMessage.systemMessage "x"].head?.map
        ChatMessage.isSystem ≠ some true) ∧
    buildRequestMessages (some "S")
        [ChatMessage.userMessage "hi", ChatMessage.systemMessage "x"] =
      [ChatMessage.userMessage "hi", ChatMessage.systemMessage "x"] ∧
    buildRequestMessages (some "S")
        [ChatMessage.userMessage "hi", ChatMessage.systemMessage "x"] ≠
      ChatMessage.systemMessage "S" ::
        [ChatMessage.userMessage "hi", ChatMessage.systemMessage "x"] := by
  refine ⟨by decide, rfl, by decide⟩

/-- C8 (amended): with a configured (truthy) system message, the request's
message list is the history with the system message prepended exactly when the
history contains no system message anywhere (not merely when it does not start
with one); otherwise the history is passed through unchanged.  The caller's
list itself is never mutated (the builder is a pure function on a copy). -/
theorem c8_system_message_prepend (sys : String) (messages : List ChatMessage)
    (h : sys ≠ "") :
    buildRequestMessages (some sys) messages =
      (if messages.any ChatMessage.isSystem then messages
       else createSystemMessage sys :: messages) := by
  unfold buildRequestMessages
  have ht : isTruthy (some sys) = true := by simp [isTruthy, h]
  by_cases hany : messages.any ChatMessage.isSystem
  · simp [hany, ht]
  · simp [hany, ht]

/-- C8 witness: a non-empty system message and a history with no system
message get the system message prepended. -/
theorem c8_witness :
    ("S" : String) ≠ "" ∧
    buildRequestMessages (some "S") [ChatMessage.userMessage "q"] =
      (if ([ChatMessage.userMessage "q"] : List ChatMessage).any ChatMessage.isSystem
       then [ChatMessage.userMessage "q"]
       else createSystemMessage "S" :: [ChatMessage.userMessage "q"]) :=
  ⟨by decide, c8_system_message_prepend "S" [ChatMessage.userMessage "q"] (by decide)⟩

end Merci
